import Mathlib

/-!
Verification development for the kvpuppet track downloader.

The embedding models, from `src/downloader.js` (the later, retry-capable
evolution of the script) and `src/downloader-gpt.js`:

* the track-name sanitizer and canonical target filename computed in
  `downloadAllTracks` (downloader.js:686-690);
* the filesystem-polling completion detector inlined in
  `downloadAllTracks` (downloader.js:720-734), as a function of directory
  snapshots and a tick-counted deadline (one tick = one 500 ms poll);
* the per-track orchestrator state machine of `downloadAllTracks`
  (downloader.js:670-794) with its idempotency check, solo/un-solo clicks,
  download trigger, timeout cleanup and the operator's Retry/Skip prompt;
* the paginated catalog scraper `fetchPurchasedSongs`
  (downloader.js:436-531);
* the mixer locator `findMixerContext` (downloader-gpt.js:92-162).

Browser and filesystem effects are made explicit: the set of files the
browser drops into the download directory during an attempt, and the
operator's prompt answers, are inputs (an environment); machine state the
script mutates (directory listing, the widget's single solo state, the
trace of performed actions) is threaded explicitly.
-/

/-- The set of characters matched by JavaScript's `\s` regex class
(the whitespace class used by `/[^a-z0-9\s-]/gi` and `/\s+/g` in
downloader.js:687). -/
def jsSpace (c : Char) : Bool :=
  c = ' ' || c = '\t' || c = '\n' || c = '\r' || c.toNat = 0x0b || c.toNat = 0x0c ||
  c.toNat = 0xa0 || c.toNat = 0x1680 || (0x2000 ≤ c.toNat && c.toNat ≤ 0x200a) ||
  c.toNat = 0x2028 || c.toNat = 0x2029 || c.toNat = 0x202f || c.toNat = 0x205f ||
  c.toNat = 0x3000 || c.toNat = 0xfeff

/-- A character kept (not replaced by `_`) by the first replace in
`trackName.replace(/[^a-z0-9\s-]/gi, '_')` (downloader.js:687):
ASCII alphanumerics, any `\s` whitespace, and the hyphen. -/
def keepChar (c : Char) : Bool :=
  c.isAlphanum || jsSpace c || c = '-'

/-- Second pass of downloader.js:687, `.replace(/\s+/g, ' ')`:
each maximal run of whitespace becomes a single space.  The boolean
argument records whether the previous character was part of a run. -/
def collapseWs : Bool → List Char → List Char
  | _, [] => []
  | prev, c :: cs =>
    if jsSpace c then
      if prev then collapseWs true cs else ' ' :: collapseWs true cs
    else c :: collapseWs false cs

/-- `safeTrackName` (downloader.js:687):
`trackName.replace(/[^a-z0-9\s-]/gi, '_').replace(/\s+/g, ' ')`. -/
def safeTrackName (s : String) : String :=
  ⟨collapseWs false (s.data.map (fun c => if keepChar c then c else '_'))⟩

/-- `String(i + 1).padStart(2, '0')` (downloader.js:688). -/
def trackNumber (i : Nat) : String :=
  let s := toString (i + 1)
  if s.length < 2 then ⟨List.replicate (2 - s.length) '0'⟩ ++ s else s

/-- `finalFileName` (downloader.js:689):
`` `${trackNumber} - ${safeTrackName}.mp3` `` for 0-based index `i`. -/
def finalFileName (i : Nat) (nm : String) : String :=
  trackNumber i ++ " - " ++ safeTrackName nm ++ ".mp3"

/-- The sanitizer exactly as the claim words it: every character outside
alphanumeric/space/hyphen becomes `_` (the space character only, not the
whole whitespace class), then whitespace runs collapse to one space. -/
def claimKeep (c : Char) : Bool :=
  c.isAlphanum || c = ' ' || c = '-'

/-- Claim-side sanitizer built from `claimKeep`; compared against the
source-side `safeTrackName`. -/
def claimSanitize (s : String) : String :=
  ⟨collapseWs false (s.data.map (fun c => if claimKeep c then c else '_'))⟩

/-- The claim's target-filename formula, using the claim-side sanitizer. -/
def claimTargetName (i : Nat) (nm : String) : String :=
  trackNumber i ++ " - " ++ claimSanitize nm ++ ".mp3"

/-! ## Completion detector (downloader.js:720-734) -/

/-- JavaScript's `String.prototype.endsWith`: a plain suffix test. -/
def jsEndsWith (s post : String) : Bool :=
  post.data.isSuffixOf s.data

/-- One directory probe (downloader.js:727):
`currentFiles.find(file => !filesBefore.has(file) && !file.endsWith('.crdownload'))`. -/
def findNewFile (before current : List String) : Option String :=
  current.find? (fun f => !before.contains f && !jsEndsWith f ".crdownload")

/-- The polling loop of downloader.js:725-734.  `current t` is the
directory listing read at tick `t` (one tick = one 500 ms poll); `fuel`
is the number of polls the 180 s deadline allows.  Returns the first
accepted entry together with the tick at which it was seen, or `none`
when the deadline elapses first. -/
def pollForFile (before : List String) (current : Nat → List String) :
    Nat → Nat → Option (String × Nat)
  | 0, _ => none
  | fuel + 1, t =>
    match findNewFile before (current t) with
    | some f => some (f, t)
    | none => pollForFile before current fuel (t + 1)

/-- `DOWNLOAD_TIMEOUT_MS / poll interval = 180000 / 500` polls
(downloader.js:672, 733). -/
def pollBudget : Nat := 360

/-- The detector including the post-detection grace sleep
(downloader.js:730): on success the reference is returned one tick after
the find tick. -/
def awaitNewFile (before : List String) (current : Nat → List String)
    (fuel : Nat) : Option (String × Nat) :=
  (pollForFile before current fuel 0).map (fun r => (r.1, r.2 + 1))

/-- Node's `fs.readdirSync` on a directory that may be missing: it throws
`ENOENT` when the directory does not exist, otherwise returns the
listing.  (downloader.js:720 calls it with no try/catch.) -/
def readdirSync : Option (List String) → Except String (List String)
  | none => .error "ENOENT"
  | some l => .ok l

/-- The detector start (downloader.js:720) followed by the poll loop:
the `filesBefore` snapshot is read with `readdirSync`, whose failure on a
missing directory propagates. -/
def awaitNewFileChecked (dir : Option (List String))
    (current : Nat → List String) (fuel : Nat) :
    Except String (Option (String × Nat)) :=
  match readdirSync dir with
  | .error e => .error e
  | .ok before => .ok (awaitNewFile before current fuel)

/-- Example snapshot sequence from the spec's detector test:
`{}` then `{"x.crdownload"}` then `{"x.mp3"}`. -/
def exSnaps : Nat → List String :=
  fun t => if t = 0 then [] else if t = 1 then ["x.crdownload"] else ["x.mp3"]

/-! ## Catalog scraper (`fetchPurchasedSongs`, downloader.js:436-531) -/

/-- One scraped entry: `{ name, value: anchor.href, key: anchor.href }`
(downloader.js:463). -/
structure Song where
  name : String
  value : String
  key : String
deriving DecidableEq

/-- What the remote listing shows the scraper, page by page:
`pages k` is the `(name, value, key)` list extracted on page `k`
(numbered from 1); `hasNext k` is whether `a[rel="next"]` is present on
page `k`; `sentinelChanged k` is whether, after clicking "next" on page
`k`, the first-song sentinel predicate succeeded within its timeout
(downloader.js:485-516). -/
structure ScrapeEnv where
  pages : Nat → List Song
  hasNext : Nat → Bool
  sentinelChanged : Nat → Bool

/-- `songsOnPage.forEach(song => collectedSongUrls.add(song.value))`
(downloader.js:472): insert each value into the url set, modelled as a
duplicate-free list in insertion order. -/
def addUrls (urls : List String) (songs : List Song) : List String :=
  songs.foldl (fun u s => if u.contains s.value then u else u ++ [s.value]) urls

/-- The pagination loop of `fetchPurchasedSongs` (downloader.js:452-521).
State: current page number (from 1), `collectedSongs` accumulator (with
duplicates) and the url set.  `fuel` bounds the iteration count (the JS
loop is `while (true)`; the stall rule, a missing "next" link, or a
failed sentinel wait are its only exits).  Returns `collectedSongs` at
loop exit. -/
def fetchLoop (env : ScrapeEnv) : Nat → Nat → List Song → List String → List Song
  | 0, _, acc, _ => acc
  | fuel + 1, pageNumber, acc, urls =>
    let songsOnPage := env.pages pageNumber
    let acc' := acc ++ songsOnPage
    let urls' := addUrls urls songsOnPage
    let newUniqueCount := urls'.length - urls.length
    if pageNumber > 1 && newUniqueCount == 0 then acc'
    else if env.hasNext pageNumber then
      if env.sentinelChanged pageNumber then
        fetchLoop env fuel (pageNumber + 1) acc' urls'
      else acc'
    else acc'

/-- Key set of the collected songs in first-occurrence order, as built by
`new Map(collectedSongs.map(song => [song.key, song]))` (downloader.js:524):
a JS Map keeps a key at its first-insertion position. -/
def keysInOrder (songs : List Song) : List String :=
  songs.foldl (fun ks s => if ks.contains s.key then ks else ks ++ [s.key]) []

/-- The JS Map is last-write-wins: the value stored for `k` is the last
collected song with that key. -/
def lastValueFor (songs : List Song) (k : String) : Option Song :=
  songs.reverse.find? (fun s => s.key == k)

/-- `Array.from(new Map(collectedSongs.map(song => [song.key, song])).values())`
(downloader.js:524). -/
def dedupByKey (songs : List Song) : List Song :=
  (keysInOrder songs).filterMap (lastValueFor songs)

/-- `a.name.localeCompare(b.name)` (downloader.js:527) modelled as
code-point order on names. -/
def nameLe (a b : Song) : Bool :=
  !(decide (b.name < a.name))

/-- Insertion step of the sort at downloader.js:527. -/
def insertSorted (s : Song) : List Song → List Song
  | [] => [s]
  | x :: xs => if nameLe s x then s :: x :: xs else x :: insertSorted s xs

/-- `uniqueSongs.sort(...)` (downloader.js:527). -/
def sortByName (songs : List Song) : List Song :=
  songs.foldr insertSorted []

/-- `fetchPurchasedSongs` (downloader.js:436-531): run the pagination
loop from page 1 with empty accumulators, deduplicate by key, sort by
display name. -/
def fetchPurchasedSongs (env : ScrapeEnv) (fuel : Nat) : List Song :=
  sortByName (dedupByKey (fetchLoop env fuel 1 [] []))

/-! ## Track download orchestrator (`downloadAllTracks`, downloader.js:670-794) -/

/-- A mixer track as the orchestrator sees it: the `.track__caption`
text (absent when the caption element is missing, in which case reading
`textContent` of a null element throws) and whether a
`button.track__solo` control exists (downloader.js:683, 700). -/
structure Track where
  caption : Option String
  hasSolo : Bool
deriving DecidableEq

/-- Observable actions the orchestrator performs, tagged with the track
index they belong to. -/
inductive Event where
  | soloOn (i : Nat)
  | soloOff (i : Nat)
  | trigger (i : Nat)
  | renamed (i : Nat) (src tgt : String)
  | unlinked (i : Nat) (f : String)
  | prompted (i : Nat) (skip : Bool)
deriving DecidableEq

/-- The index an event belongs to. -/
def evIndex : Event → Nat
  | .soloOn i => i
  | .soloOff i => i
  | .trigger i => i
  | .renamed i _ _ => i
  | .unlinked i _ => i
  | .prompted i _ => i

/-- The external world the orchestrator interacts with:
`added k t` is the list of files the browser has dropped into the
download directory, `t` ticks into the `k`-th triggered download attempt
(attempts numbered globally from the orchestrator's start); `skipChoice k`
is the operator's answer if attempt `k` times out (`true` = Skip);
`hasDownloadButton` is whether `a.download` resolves (downloader.js:716). -/
structure Env where
  added : Nat → Nat → List String
  skipChoice : Nat → Bool
  hasDownloadButton : Bool

/-- Orchestrator state: the download directory listing, the widget's
single solo state (`some i` = track `i` isolated), the action trace, and
the global download-attempt counter. -/
structure OrchState where
  fs : List String
  isolated : Option Nat
  events : List Event
  k : Nat
deriving DecidableEq

/-- Clicking a track's solo button toggles the widget's single global
solo state (spec §3: the widget enforces one isolation state). -/
def toggleSolo (i : Nat) : Option Nat → Option Nat
  | st => if st = some i then none else some i

/-- Keep only names genuinely new relative to `before`, each once:
directory entries are unique, so a file the browser adds can appear only
if its name is not already listed. -/
def dedupKeepFirst (l : List String) : List String :=
  l.foldl (fun acc f => if acc.contains f then acc else acc ++ [f]) []

/-- The directory listing observed at tick `t` of an attempt whose
pre-trigger snapshot was `before` and whose browser additions are
`added t`. -/
def attemptDir (before : List String) (added : Nat → List String) :
    Nat → List String :=
  fun t => before ++ dedupKeepFirst ((added t).filter (fun f => !before.contains f))

/-- Why `downloadAllTracks` aborts: the re-queried track list has no
element at `i` (stale DOM), the caption element is missing so reading
its text throws (downloader.js:683-684), `a.download` never appears
(downloader.js:716), or the model's retry fuel ran out (the JS
retry loop is unbounded while the operator keeps choosing Retry). -/
inductive OrchErr where
  | trackMissing
  | captionMissing
  | downloadButtonMissing
  | retryFuelExhausted
deriving DecidableEq

/-- One iteration of the retry `while` loop in `downloadAllTracks`
(downloader.js:678-790): resolve the track and its caption, compute the
target filename, skip if it exists, else solo (if the control exists),
trigger the shared download, await completion, then rename on success or
clean up and prompt on timeout, and finally un-solo.  Returns the new
state plus the `(downloadSuccessful, userSkipped)` flags. -/
def processAttempt (tracks : List Track) (env : Env) (i : Nat)
    (s : OrchState) : Except OrchErr (OrchState × Bool × Bool) :=
  match tracks.get? i with
  | none => .error .trackMissing
  | some tr =>
    match tr.caption with
    | none => .error .captionMissing
    | some nm =>
      let fileName := finalFileName i nm
      if s.fs.contains fileName then .ok (s, true, false)
      else
        let soloEvOn : List Event := if tr.hasSolo then [.soloOn i] else []
        let isol1 := if tr.hasSolo then toggleSolo i s.isolated else s.isolated
        if env.hasDownloadButton then
          let before := s.fs
          let current := attemptDir before (env.added s.k)
          match pollForFile before current pollBudget 0 with
          | some (f, t) =>
            let fs' := ((current t).erase f).filter (fun g => g != fileName)
                        ++ [fileName]
            let soloEvOff : List Event := if tr.hasSolo then [.soloOff i] else []
            let isol2 := if tr.hasSolo then toggleSolo i isol1 else isol1
            .ok ({ fs := fs', isolated := isol2,
                   events := s.events ++ soloEvOn
                             ++ [.trigger i, .renamed i f fileName] ++ soloEvOff,
                   k := s.k + 1 }, true, false)
          | none =>
            let dirEnd := current pollBudget
            let cleaned :=
              match dirEnd.find?
                  (fun g => !before.contains g && jsEndsWith g ".crdownload") with
              | some tf => (dirEnd.erase tf, [Event.unlinked i tf])
              | none => (dirEnd, ([] : List Event))
            let skip := env.skipChoice s.k
            let soloEvOff : List Event := if tr.hasSolo then [.soloOff i] else []
            let isol2 := if tr.hasSolo then toggleSolo i isol1 else isol1
            .ok ({ fs := cleaned.1, isolated := isol2,
                   events := s.events ++ soloEvOn ++ [.trigger i] ++ cleaned.2
                             ++ [.prompted i skip] ++ soloEvOff,
                   k := s.k + 1 }, false, skip)
        else .error .downloadButtonMissing

/-- The retry `while (!downloadSuccessful && !userSkipped)` loop around
one track (downloader.js:678).  `fuel` bounds the number of attempts the
model allows (the JS loop is unbounded while the operator answers
Retry). -/
def processTrack (tracks : List Track) (env : Env) :
    Nat → Nat → OrchState → Except OrchErr OrchState
  | 0, _, _ => .error .retryFuelExhausted
  | fuel + 1, i, s =>
    match processAttempt tracks env i s with
    | .error e => .error e
    | .ok (s₁, done, skipped) =>
      if done || skipped then .ok s₁ else processTrack tracks env fuel i s₁

/-- The `for (let i = 0; i < tracks.length; i++)` loop of
`downloadAllTracks` (downloader.js:674), processing `rem` more tracks
starting at index `i`. -/
def downloadLoop (tracks : List Track) (env : Env) (retryFuel : Nat) :
    Nat → Nat → OrchState → Except OrchErr OrchState
  | 0, _, s => .ok s
  | rem + 1, i, s =>
    match processTrack tracks env retryFuel i s with
    | .error e => .error e
    | .ok s₁ => downloadLoop tracks env retryFuel rem (i + 1) s₁

/-- `downloadAllTracks` (downloader.js:670-794). -/
def downloadAllTracks (tracks : List Track) (env : Env) (retryFuel : Nat)
    (s : OrchState) : Except OrchErr OrchState :=
  downloadLoop tracks env retryFuel tracks.length 0 s

/-! ## Mixer locator (`findMixerContext`, downloader-gpt.js:92-162) -/

/-- A rendering context (frame) as visible to the locator.  `hasMixer`
is the result of `f.$('#html-mixer')`: `none` models a frame whose
access throws (caught and ignored at downloader-gpt.js:127), `some b`
a frame that answers.  `content` is `f.content()`: `none` models a
throw (caught into an empty dump, downloader-gpt.js:153).  Puppeteer's
`page.frames()` includes the main frame, so the top-level document is
the first entry of the list. -/
structure PageFrame where
  hasMixer : Option Bool
  content : Option String
deriving DecidableEq

/-- What one probe instant of the page looks like: whether the top-level
document has `#html-mixer`, the frame list, and whether the
likely-mixer-iframe fallback (downloader-gpt.js:131-139) yields a frame
that verifies (`some true`), fails to verify (`some false`), or is
absent (`none`). -/
structure PageView where
  pageHasMixer : Bool
  frames : List PageFrame
  iframeCand : Option Bool

/-- The locator environment: `view t` is the page at probe instant `t`
(instant 0: the initial main-page check; instant 1: the re-check after
clicking an opener, when present; instants 2, 3, ... : the poll loop's
iterations), plus whether any opener button exists. -/
structure LocatorEnv where
  view : Nat → PageView
  openerPresent : Bool

/-- The handle `findMixerContext` resolves: the page itself, the `j`-th
entry of `page.frames()`, or the verified fallback iframe. -/
inductive MixerHandle where
  | pageCtx
  | frameCtx (j : Nat)
  | iframeCtx
deriving DecidableEq

/-- The frame scan of downloader-gpt.js:123-128: return the first frame
where `f.$('#html-mixer')` finds the root, skipping frames that throw. -/
def scanFrames : List PageFrame → Option Nat
  | [] => none
  | f :: fs =>
    match f.hasMixer with
    | some true => some 0
    | _ => (scanFrames fs).map (· + 1)

/-- One iteration of the poll loop (downloader-gpt.js:119-145): main
page first, then the frame scan, then the likely-mixer-iframe
fallback.  `none` means this iteration found nothing (the code then
scrolls and sleeps). -/
def loopProbe (v : PageView) : Option MixerHandle :=
  if v.pageHasMixer then some .pageCtx
  else
    match scanFrames v.frames with
    | some j => some (.frameCtx j)
    | none =>
      match v.iframeCand with
      | some true => some .iframeCtx
      | _ => none

/-- The diagnostic dump after timeout (downloader-gpt.js:148-160): for
each frame, `f.content().catch(() => '')`, written to disk only when
non-empty; frames whose content throws, or is empty, are skipped. -/
def savedDiagnostics (fs : List PageFrame) : List String :=
  fs.filterMap (fun f =>
    match f.content with
    | some h => if h = "" then none else some h
    | none => none)

/-- The bounded poll loop of `findMixerContext`, starting at probe
instant `t` with `fuel` iterations left before the `timeoutMs` deadline. -/
def findLoop (env : LocatorEnv) : Nat → Nat → Option (MixerHandle × Nat)
  | 0, _ => none
  | fuel + 1, t =>
    match loopProbe (env.view t) with
    | some h => some (h, t)
    | none => findLoop env fuel (t + 1)

/-- `findMixerContext` (downloader-gpt.js:92-162): check the main page
(instant 0); if an opener button exists, click it once and re-check the
main page (instant 1); then poll for `timeout` iterations; on exhaustion
dump diagnostics for every reachable frame and fail. -/
def findMixerContext (env : LocatorEnv) (timeout : Nat) :
    Except (List String) MixerHandle :=
  if (env.view 0).pageHasMixer then .ok .pageCtx
  else if env.openerPresent && (env.view 1).pageHasMixer then .ok .pageCtx
  else
    match findLoop env timeout 2 with
    | some (h, _) => .ok h
    | none => .error (savedDiagnostics (env.view (timeout + 2)).frames)

/-- Concrete pagination environment for the C7 witness: pages 1 and 2
both show the same three songs, and a "next" affordance is present on
every page. -/
def envC7 : ScrapeEnv :=
  { pages := fun k =>
      if k = 1 ∨ k = 2 then
        [⟨"Alpha", "u1", "u1"⟩, ⟨"Beta", "u2", "u2"⟩, ⟨"Gamma", "u3", "u3"⟩]
      else [],
    hasNext := fun _ => true,
    sentinelChanged := fun _ => true }

/-! Orchestrator helper lemmas: solo-state replay over the event trace. -/

/-- Replay one event against the widget's solo state, detecting
violations: `none` (outer) marks a failed replay, i.e. a solo activation
fired while some track was already isolated, or a deactivation that did
not match the isolated track. -/
def soloStep (acc : Option (Option Nat)) (e : Event) : Option (Option Nat) :=
  match acc with
  | none => none
  | some st =>
    match e with
    | .soloOn i => match st with | none => some (some i) | some _ => none
    | .soloOff i =>
      match st with
      | some j => if j = i then some none else none
      | none => none
    | _ => some st

/-- Replay a whole trace. -/
def soloReplay (acc : Option (Option Nat)) (es : List Event) :
    Option (Option Nat) :=
  es.foldl soloStep acc

/-- Concrete one-track environment for the C3 witness. -/
def tracksC3 : List Track := [⟨some "Drums", true⟩]

/-- Concrete environment: the browser delivers `d.mp3` promptly. -/
def envC3 : Env := ⟨fun _ _ => ["d.mp3"], fun _ => false, true⟩

/-- Start state for the C3 witness. -/
def s0C3 : OrchState := ⟨[], none, [], 0⟩

/-- End state of the C3 witness run. -/
def s1C3 : OrchState :=
  ⟨["01 - Drums.mp3"], none,
   [.soloOn 0, .trigger 0, .renamed 0 "d.mp3" "01 - Drums.mp3", .soloOff 0], 1⟩

/-- Concrete one-track setup for the C2 witness: the canonical file is
already on disk. -/
def tracksC2 : List Track := [⟨some "Piano", true⟩]

/-- Concrete environment for the C2 witness. -/
def envC2 : Env := ⟨fun _ _ => [], fun _ => false, true⟩

/-- Start state for the C2 witness: `01 - Piano.mp3` already exists. -/
def sC2 : OrchState := ⟨["01 - Piano.mp3"], none, [], 0⟩

/-- Concrete track list for the C9 witness. -/
def tracksC9 : List Track := [⟨some "Guitar", true⟩]

/-- Concrete environment for the C9 witness: the browser drops a PDF,
not an audio file. -/
def envC9 : Env := ⟨fun _ _ => ["weird.pdf"], fun _ => false, true⟩

/-- Start state for the C9 witness. -/
def sC9 : OrchState := ⟨["old.mp3"], none, [], 0⟩

/-- End state of the C9 witness attempt: the PDF was renamed to the
`.mp3` target. -/
def s1C9 : OrchState :=
  ⟨["old.mp3", finalFileName 0 "Guitar"], none,
   [.soloOn 0, .trigger 0, .renamed 0 "weird.pdf" (finalFileName 0 "Guitar"),
    .soloOff 0], 1⟩

/-- Concrete pieces for the C10 witness: one captionless track, and one
captioned track without a solo control. -/
def tracksC10a : List Track := [⟨none, true⟩]

/-- Captioned, solo-less track list for the C10 witness. -/
def tracksC10b : List Track := [⟨some "Choir", false⟩]

/-- Environment for the C10 witness. -/
def envC10 : Env := ⟨fun _ _ => ["c.mp3"], fun _ => false, true⟩

/-- Start state for the C10 witness. -/
def sC10 : OrchState := ⟨[], none, [], 0⟩

/-- Recognizer for download-trigger events. -/
def isTriggerEv : Event → Bool
  | .trigger _ => true
  | _ => false

/-- Concrete track list for the C6 witness. -/
def tracksC6 : List Track := [⟨some "Bass", true⟩]

/-- Concrete environment for the C6 witness: the browser only ever
leaves a partial `p.crdownload` behind, and the operator answers Skip. -/
def envC6 : Env := ⟨fun _ _ => ["p.crdownload"], fun _ => true, true⟩

/-- Start state for the C6 witness. -/
def sC6 : OrchState := ⟨[], none, [], 0⟩

/-- End state of the C6 witness attempt: cleaned directory, one trigger,
prompt answered Skip, solo toggled off again. -/
def s1C6 : OrchState :=
  ⟨[], none,
   [.soloOn 0, .trigger 0, .unlinked 0 "p.crdownload", .prompted 0 true,
    .soloOff 0], 1⟩

/-- Concrete environment for the C8 witness: no mixer anywhere, one
frame whose element query throws but whose content is downloadable, one
frame that answers without the mixer but throws on content. -/
def envC8 : LocatorEnv :=
  ⟨fun _ => ⟨false, [⟨none, some "frame html"⟩, ⟨some false, none⟩], none⟩,
   false⟩

example : awaitNewFile [] exSnaps 360 = some ("x.mp3", 3) := by decide

example : safeTrackName "Lead Vocal (Take 2)" = "Lead Vocal _Take 2_" := by decide

example : finalFileName 2 "Lead Vocal (Take 2)" = "03 - Lead Vocal _Take 2_.mp3" := by
  decide

example : safeTrackName "a\tb" = "a b" := by decide
example : claimSanitize "a\tb" = "a_b" := by decide

/-! Shared list bridging lemmas. -/

theorem contains_true_of_mem {l : List String} {a : String} (h : a ∈ l) :
    l.contains a = true := by
  simpa using h

theorem not_mem_of_contains_false {l : List String} {a : String}
    (h : l.contains a = false) : a ∉ l := by
  simp at h
  exact h

theorem find?_append_of_none {p : String → Bool} {l₁ : List String}
    (l₂ : List String) (h : ∀ x ∈ l₁, p x = false) :
    List.find? p (l₁ ++ l₂) = List.find? p l₂ := by
  induction l₁ with
  | nil => rfl
  | cons b bs ih =>
    have hb : p b = false := h b (by simp)
    simp only [List.cons_append, List.find?_cons, hb]
    exact ih (fun x hx => h x (by simp [hx]))

/-! Lemmas about the completion detector's poll loop. -/

theorem pollForFile_sound {before : List String} {current : Nat → List String} :
    ∀ {fuel t0 f t}, pollForFile before current fuel t0 = some (f, t) →
      t0 ≤ t ∧ t < t0 + fuel ∧ findNewFile before (current t) = some f := by
  intro fuel
  induction fuel with
  | zero => intro t0 f t h; simp [pollForFile] at h
  | succ n ih =>
    intro t0 f t h
    rw [pollForFile] at h
    cases hf : findNewFile before (current t0) with
    | some g =>
      rw [hf] at h
      obtain ⟨hg, ht⟩ : g = f ∧ t0 = t := by simpa using h
      subst hg
      subst ht
      exact ⟨le_refl _, by omega, hf⟩
    | none =>
      rw [hf] at h
      obtain ⟨h1, h2, h3⟩ := ih h
      exact ⟨by omega, by omega, h3⟩

theorem pollForFile_none {before : List String} {current : Nat → List String} :
    ∀ {fuel t0}, pollForFile before current fuel t0 = none →
      ∀ d, d < fuel → findNewFile before (current (t0 + d)) = none := by
  intro fuel
  induction fuel with
  | zero => intro t0 _ d hd; omega
  | succ n ih =>
    intro t0 h d hd
    rw [pollForFile] at h
    cases hf : findNewFile before (current t0) with
    | some g => rw [hf] at h; exact absurd h (by simp)
    | none =>
      rw [hf] at h
      match d with
      | 0 => simpa using hf
      | d + 1 =>
        have := ih h d (by omega)
        simpa [Nat.add_assoc, Nat.add_comm 1 d] using this

theorem pollForFile_found {before : List String} {current : Nat → List String}
    {t0 : Nat} {f : String} (h : findNewFile before (current t0) = some f)
    {fuel : Nat} (hf : 0 < fuel) :
    pollForFile before current fuel t0 = some (f, t0) := by
  match fuel, hf with
  | n + 1, _ => rw [pollForFile, h]

theorem pollForFile_none_of_all {before : List String}
    {current : Nat → List String}
    (h : ∀ t, findNewFile before (current t) = none) :
    ∀ fuel t0, pollForFile before current fuel t0 = none := by
  intro fuel
  induction fuel with
  | zero => intro t0; rfl
  | succ n ih => intro t0; rw [pollForFile, h t0]; exact ih (t0 + 1)

/-- C4.  For every directory-snapshot sequence, the Completion Detector
returns a file reference only for an entry present in the snapshot it was
found in, absent from `snapshotBefore`, and not ending in `.crdownload`;
the return tick is one grace interval after the find tick (so `r - 1` is
the find tick); if the deadline elapses with no candidate it returns
`none` (TimedOut), meaning every in-window probe found nothing.  On the
concrete sequence `{} → {"x.crdownload"} → {"x.mp3"}` it returns the
reference to `x.mp3` (found at tick 2, returned at tick 3), never
`x.crdownload`. -/
theorem c4_completion_detector :
    (∀ (before : List String) (current : Nat → List String) (fuel : Nat)
        (f : String) (r : Nat),
      awaitNewFile before current fuel = some (f, r) →
      1 ≤ r ∧ r - 1 < fuel ∧ f ∈ current (r - 1) ∧
        before.contains f = false ∧ jsEndsWith f ".crdownload" = false) ∧
    (∀ (before : List String) (current : Nat → List String) (fuel : Nat),
      awaitNewFile before current fuel = none →
      ∀ t, t < fuel → findNewFile before (current t) = none) ∧
    awaitNewFile [] exSnaps 360 = some ("x.mp3", 3) := by
  refine ⟨?_, ?_, by decide⟩
  · intro before current fuel f r h
    unfold awaitNewFile at h
    cases hp : pollForFile before current fuel 0 with
    | none => rw [hp] at h; exact absurd h (by simp)
    | some ft =>
      rw [hp] at h
      obtain ⟨hf, hr⟩ : ft.1 = f ∧ ft.2 + 1 = r := by simpa using h
      obtain ⟨-, h2, h3⟩ := @pollForFile_sound before current fuel 0 ft.1 ft.2
        (by rw [hp])
      rw [hf] at h3
      have hrt : r - 1 = ft.2 := by omega
      rw [hrt]
      have hmem : f ∈ current ft.2 := List.mem_of_find?_eq_some h3
      have hprop := List.find?_some h3
      have hc : before.contains f = false := by
        rcases Bool.and_eq_true .. |>.mp hprop with ⟨hc', -⟩
        simpa using hc'
      have he : jsEndsWith f ".crdownload" = false := by
        rcases Bool.and_eq_true .. |>.mp hprop with ⟨-, he'⟩
        simpa using he'
      exact ⟨by omega, by omega, hmem, hc, he⟩
  · intro before current fuel h t ht
    unfold awaitNewFile at h
    cases hp : pollForFile before current fuel 0 with
    | some ft => rw [hp] at h; exact absurd h (by simp)
    | none => simpa using pollForFile_none hp t ht

/-- Witness for C4: the detector's guarantees, instantiated on the
spec's own example sequence. -/
theorem c4_completion_detector_witness :
    (1 ≤ 3 ∧ 3 - 1 < 360 ∧ "x.mp3" ∈ exSnaps (3 - 1) ∧
      List.contains [] "x.mp3" = false ∧
      jsEndsWith "x.mp3" ".crdownload" = false) ∧
    awaitNewFile [] exSnaps 360 = some ("x.mp3", 3) :=
  ⟨c4_completion_detector.1 [] exSnaps 360 "x.mp3" 3 (by decide),
   c4_completion_detector.2.2⟩

/-! Claim C1: the target-filename formula. -/

theorem keep_eq_claimKeep {c : Char} (h : jsSpace c = true → c = ' ') :
    (if keepChar c then c else '_') = (if claimKeep c then c else '_') := by
  by_cases hj : jsSpace c = true
  · have hc : c = ' ' := h hj
    subst hc
    decide
  · have hj' : jsSpace c = false := by
      cases hjs : jsSpace c
      · rfl
      · exact absurd hjs hj
    have hsp : (c = ' ') = False := by
      simp only [eq_iff_iff, iff_false]
      intro hc
      subst hc
      exact hj (by decide)
    simp [keepChar, claimKeep, hj', hsp]

theorem map_keep_eq {l : List Char} (h : ∀ c ∈ l, jsSpace c = true → c = ' ') :
    l.map (fun c => if keepChar c then c else '_') =
      l.map (fun c => if claimKeep c then c else '_') := by
  induction l with
  | nil => rfl
  | cons c cs ih =>
    simp only [List.map_cons]
    rw [keep_eq_claimKeep (h c (by simp)), ih (fun x hx => h x (by simp [hx]))]

/-- C1 (amended).  The orchestrator's target filename is
`{i+1 zero-padded to 2 digits} - {sanitized name}.mp3`, and the
source-side sanitizer agrees with the claim's
"outside alphanumeric/space/hyphen goes to `_`, whitespace collapses"
description on every display name whose whitespace characters are all
plain spaces (the source keeps the whole `\s` class, not just the space,
before collapsing — see the counterexample).  The claim's concrete
example holds exactly as stated: index 2 (1-based track 3) of
"Lead Vocal (Take 2)" gives "03 - Lead Vocal _Take 2_.mp3". -/
theorem c1_target_filename :
    (∀ (nm : String) (i : Nat),
      (∀ c ∈ nm.data, jsSpace c = true → c = ' ') →
      finalFileName i nm = claimTargetName i nm) ∧
    finalFileName 2 "Lead Vocal (Take 2)" = "03 - Lead Vocal _Take 2_.mp3" := by
  refine ⟨?_, by decide⟩
  intro nm i h
  unfold finalFileName claimTargetName
  have : safeTrackName nm = claimSanitize nm := by
    unfold safeTrackName claimSanitize
    rw [map_keep_eq h]
  rw [this]

/-- Witness for C1: the amended equivalence applied to the claim's own
example name, whose whitespace is plain spaces only. -/
theorem c1_target_filename_witness :
    finalFileName 2 "Lead Vocal (Take 2)" =
      claimTargetName 2 "Lead Vocal (Take 2)" :=
  c1_target_filename.1 "Lead Vocal (Take 2)" 2 (by decide)

/-- Counterexample for C1 as stated: for a display name containing a tab,
the code keeps the tab (whitespace class) and collapses it to a space,
while the claim's sanitizer (space only) would replace it with `_`; so
the computed filename differs from the claim's formula. -/
theorem c1_counterexample :
    finalFileName 0 "a\tb" = "01 - a b.mp3" ∧
    claimTargetName 0 "a\tb" = "01 - a_b.mp3" ∧
    finalFileName 0 "a\tb" ≠ claimTargetName 0 "a\tb" := by
  exact ⟨by decide, by decide, by decide⟩

/-! Claim C5: detector start on a missing directory. -/

/-- C5 (amended).  If the watched directory does not exist when the
detector starts, the snapshot read (`fs.readdirSync`, called with no
try/catch) raises ENOENT and the error propagates; the directory is not
treated as an empty snapshot.  When the directory exists the snapshot is
its listing and the poll loop runs normally. -/
theorem c5_missing_dir_raises :
    (∀ (current : Nat → List String) (fuel : Nat),
      awaitNewFileChecked none current fuel = .error "ENOENT") ∧
    (∀ (l : List String) (current : Nat → List String) (fuel : Nat),
      awaitNewFileChecked (some l) current fuel =
        .ok (awaitNewFile l current fuel)) :=
  ⟨fun _ _ => rfl, fun _ _ _ => rfl⟩

/-- Counterexample for C5 as stated: with the directory missing, the
detector phase returns an error instead of proceeding to a candidate or
TimedOut. -/
theorem c5_counterexample :
    awaitNewFileChecked none (fun _ => []) 3 = .error "ENOENT" := rfl

/-! Claim C7: pagination stall termination. -/

theorem addUrls_of_contained {urls : List String} {songs : List Song}
    (h : ∀ s ∈ songs, urls.contains s.value = true) :
    addUrls urls songs = urls := by
  induction songs generalizing urls with
  | nil => rfl
  | cons s ss ih =>
    unfold addUrls
    simp only [List.foldl_cons, h s (by simp)]
    simp only [if_true]
    exact ih (fun x hx => h x (by simp [hx]))

/-- C7.  On any page `k ≥ 2` whose entries contribute zero new unique
keys to the accumulator, the scraper's pagination loop stops right after
merging that page, returning the collected list — for every environment,
in particular regardless of whether a "next" affordance is present on
page `k`; the scrape ends normally (a value, not an error). -/
theorem c7_pagination_stall :
    ∀ (env : ScrapeEnv) (fuel k : Nat) (acc : List Song)
      (urls : List String),
      2 ≤ k →
      (∀ s ∈ env.pages k, urls.contains s.value = true) →
      fetchLoop env (fuel + 1) k acc urls = acc ++ env.pages k := by
  intro env fuel k acc urls hk h
  rw [fetchLoop]
  have hadd : addUrls urls (env.pages k) = urls := addUrls_of_contained h
  have hgt : k > 1 := by omega
  simp [hadd, hgt]

/-- Witness for C7: page 2 repeats page 1's keys, the "next" affordance
is present everywhere, and the loop still stops right after page 2. -/
theorem c7_pagination_stall_witness :
    fetchLoop envC7 10 2
      [⟨"Alpha", "u1", "u1"⟩, ⟨"Beta", "u2", "u2"⟩, ⟨"Gamma", "u3", "u3"⟩]
      ["u1", "u2", "u3"] =
      [⟨"Alpha", "u1", "u1"⟩, ⟨"Beta", "u2", "u2"⟩, ⟨"Gamma", "u3", "u3"⟩]
        ++ envC7.pages 2 :=
  c7_pagination_stall envC7 9 2
    [⟨"Alpha", "u1", "u1"⟩, ⟨"Beta", "u2", "u2"⟩, ⟨"Gamma", "u3", "u3"⟩]
    ["u1", "u2", "u3"] (by decide) (by decide)

theorem soloReplay_append (a : Option (Option Nat)) (l₁ l₂ : List Event) :
    soloReplay a (l₁ ++ l₂) = soloReplay (soloReplay a l₁) l₂ :=
  List.foldl_append soloStep a l₁ l₂

theorem pairwise_le_of_const {l : List Event} {i : Nat}
    (h : ∀ e ∈ l, evIndex e = i) :
    l.Pairwise (fun a b => evIndex a ≤ evIndex b) := by
  induction l with
  | nil => exact List.Pairwise.nil
  | cons e es ih =>
    refine List.Pairwise.cons ?_ (ih (fun x hx => h x (by simp [hx])))
    intro b hb
    rw [h e (by simp), h b (by simp [hb])]

theorem processAttempt_chunk {tracks : List Track} {env : Env} {i : Nat}
    {s s₁ : OrchState} {d sk : Bool}
    (h : processAttempt tracks env i s = .ok (s₁, d, sk))
    (hiso : s.isolated = none) :
    ∃ es, s₁.events = s.events ++ es ∧
      soloReplay (some none) es = some none ∧
      (∀ e ∈ es, evIndex e = i) ∧
      s₁.isolated = none := by
  unfold processAttempt at h
  cases hg : tracks.get? i with
  | none => rw [hg] at h; simp at h
  | some tr =>
    rw [hg] at h
    simp only at h
    cases hc : tr.caption with
    | none => rw [hc] at h; simp at h
    | some nm =>
      rw [hc] at h
      simp only at h
      by_cases hex : s.fs.contains (finalFileName i nm) = true
      · rw [if_pos hex] at h
        obtain ⟨h₁, h₂, h₃⟩ : s = s₁ ∧ true = d ∧ false = sk := by
          simpa [Prod.ext_iff] using h
        subst h₁
        exact ⟨[], by simp, by simp [soloReplay], by simp, hiso⟩
      · rw [if_neg hex] at h
        by_cases hbtn : env.hasDownloadButton = true
        · rw [if_pos hbtn] at h
          cases hpoll : pollForFile s.fs (attemptDir s.fs (env.added s.k))
              pollBudget 0 with
          | some ft =>
            obtain ⟨f, t⟩ := ft
            rw [hpoll] at h
            simp only at h
            obtain ⟨h₁, h₂, h₃⟩ := by simpa [Prod.ext_iff] using h
            subst h₁
            by_cases hs : tr.hasSolo = true
            · refine ⟨[.soloOn i] ++ [.trigger i, .renamed i f (finalFileName i nm)]
                ++ [.soloOff i], ?_, ?_, ?_, ?_⟩
              · simp [hs, List.append_assoc]
              · simp [soloReplay, soloStep]
              · intro e he
                fin_cases he <;> rfl
              · simp [hs, hiso, toggleSolo]
            · have hs' : tr.hasSolo = false := by
                cases hv : tr.hasSolo
                · rfl
                · exact absurd hv hs
              refine ⟨[.trigger i, .renamed i f (finalFileName i nm)], ?_, ?_, ?_, ?_⟩
              · simp [hs', List.append_assoc]
              · simp [soloReplay, soloStep]
              · intro e he
                fin_cases he <;> rfl
              · simp [hs', hiso]
          | none =>
            rw [hpoll] at h
            simp only at h
            cases hfind : (attemptDir s.fs (env.added s.k) pollBudget).find?
                (fun g => !s.fs.contains g && jsEndsWith g ".crdownload") with
            | some tf =>
              rw [hfind] at h
              simp only at h
              obtain ⟨h₁, h₂, h₃⟩ := by simpa [Prod.ext_iff] using h
              subst h₁
              by_cases hs : tr.hasSolo = true
              · refine ⟨[.soloOn i] ++ [.trigger i] ++ [.unlinked i tf]
                  ++ [.prompted i (env.skipChoice s.k)] ++ [.soloOff i],
                  ?_, ?_, ?_, ?_⟩
                · simp [hs, List.append_assoc]
                · simp [soloReplay, soloStep]
                · intro e he
                  fin_cases he <;> rfl
                · simp [hs, hiso, toggleSolo]
              · have hs' : tr.hasSolo = false := by
                  cases hv : tr.hasSolo
                  · rfl
                  · exact absurd hv hs
                refine ⟨[.trigger i] ++ [.unlinked i tf]
                  ++ [.prompted i (env.skipChoice s.k)], ?_, ?_, ?_, ?_⟩
                · simp [hs', List.append_assoc]
                · simp [soloReplay, soloStep]
                · intro e he
                  fin_cases he <;> rfl
                · simp [hs', hiso]
            | none =>
              rw [hfind] at h
              simp only at h
              obtain ⟨h₁, h₂, h₃⟩ := by simpa [Prod.ext_iff] using h
              subst h₁
              by_cases hs : tr.hasSolo = true
              · refine ⟨[.soloOn i] ++ [.trigger i]
                  ++ [.prompted i (env.skipChoice s.k)] ++ [.soloOff i],
                  ?_, ?_, ?_, ?_⟩
                · simp [hs, List.append_assoc]
                · simp [soloReplay, soloStep]
                · intro e he
                  fin_cases he <;> rfl
                · simp [hs, hiso, toggleSolo]
              · have hs' : tr.hasSolo = false := by
                  cases hv : tr.hasSolo
                  · rfl
                  · exact absurd hv hs
                refine ⟨[.trigger i] ++ [.prompted i (env.skipChoice s.k)],
                  ?_, ?_, ?_, ?_⟩
                · simp [hs', List.append_assoc]
                · simp [soloReplay, soloStep]
                · intro e he
                  fin_cases he <;> rfl
                · simp [hs', hiso]
        · rw [if_neg hbtn] at h
          simp at h

theorem processTrack_chunk {tracks : List Track} {env : Env} {i : Nat} :
    ∀ {fuel : Nat} {s s' : OrchState},
      processTrack tracks env fuel i s = .ok s' → s.isolated = none →
      ∃ es, s'.events = s.events ++ es ∧
        soloReplay (some none) es = some none ∧
        (∀ e ∈ es, evIndex e = i) ∧
        s'.isolated = none := by
  intro fuel
  induction fuel with
  | zero =>
    intro s s' h _
    rw [processTrack] at h
    simp at h
  | succ n ih =>
    intro s s' h hiso
    rw [processTrack] at h
    cases ha : processAttempt tracks env i s with
    | error e => rw [ha] at h; simp at h
    | ok r =>
      obtain ⟨s₁, d, sk⟩ := r
      rw [ha] at h
      simp only at h
      obtain ⟨es₁, he₁, hr₁, hi₁, hiso₁⟩ := processAttempt_chunk ha hiso
      by_cases hd : (d || sk) = true
      · rw [if_pos hd] at h
        obtain h' : s₁ = s' := by simpa using h
        subst h'
        exact ⟨es₁, he₁, hr₁, hi₁, hiso₁⟩
      · rw [if_neg hd] at h
        obtain ⟨es₂, he₂, hr₂, hi₂, hiso₂⟩ := ih h hiso₁
        refine ⟨es₁ ++ es₂, ?_, ?_, ?_, hiso₂⟩
        · rw [he₂, he₁, List.append_assoc]
        · rw [soloReplay_append, hr₁, hr₂]
        · intro e he
          rcases List.mem_append.mp he with h' | h'
          · exact hi₁ e h'
          · exact hi₂ e h'

theorem downloadLoop_chunk {tracks : List Track} {env : Env} {rf : Nat} :
    ∀ {rem i : Nat} {s s' : OrchState},
      downloadLoop tracks env rf rem i s = .ok s' → s.isolated = none →
      ∃ es, s'.events = s.events ++ es ∧
        soloReplay (some none) es = some none ∧
        (∀ e ∈ es, i ≤ evIndex e) ∧
        es.Pairwise (fun a b => evIndex a ≤ evIndex b) ∧
        s'.isolated = none := by
  intro rem
  induction rem with
  | zero =>
    intro i s s' h hiso
    rw [downloadLoop] at h
    obtain h' : s = s' := by simpa using h
    subst h'
    exact ⟨[], by simp, by simp [soloReplay], by simp, by simp, hiso⟩
  | succ n ih =>
    intro i s s' h hiso
    rw [downloadLoop] at h
    cases hp : processTrack tracks env rf i s with
    | error e => rw [hp] at h; simp at h
    | ok s₁ =>
      rw [hp] at h
      simp only at h
      obtain ⟨es₁, he₁, hr₁, hi₁, hiso₁⟩ := processTrack_chunk hp hiso
      obtain ⟨es₂, he₂, hr₂, hi₂, hpw₂, hiso₂⟩ := ih h hiso₁
      refine ⟨es₁ ++ es₂, by rw [he₂, he₁, List.append_assoc],
        by rw [soloReplay_append, hr₁, hr₂], ?_, ?_, hiso₂⟩
      · intro e he
        rcases List.mem_append.mp he with h' | h'
        · exact le_of_eq (hi₁ e h').symm
        · exact le_trans (Nat.le_succ i) (hi₂ e h')
      · refine List.pairwise_append.mpr ⟨pairwise_le_of_const hi₁, hpw₂, ?_⟩
        intro a ha b hb
        rw [hi₁ a ha]
        exact le_trans (Nat.le_succ i) (hi₂ b hb)

/-- C3.  Each successful orchestrator run starting from the baseline
(no track isolated) ends at the baseline, and its event trace, replayed
against the widget's single solo state, shows that every solo activation
fired when no track was isolated and was matched by a deactivation of
the same track before anything else happened to the solo state — hence
at most one track is isolated at any instant and the baseline holds
before each next track's isolate step; moreover the trace's track
indices are in ascending processing order. -/
theorem c3_isolation_invariant :
    ∀ (tracks : List Track) (env : Env) (retryFuel rem i : Nat)
      (s s' : OrchState),
      s.isolated = none →
      downloadLoop tracks env retryFuel rem i s = .ok s' →
      s'.isolated = none ∧
      s'.events = s.events ++ s'.events.drop s.events.length ∧
      soloReplay (some none) (s'.events.drop s.events.length) = some none ∧
      (s'.events.drop s.events.length).Pairwise
        (fun a b => evIndex a ≤ evIndex b) := by
  intro tracks env rf rem i s s' hiso h
  obtain ⟨es, he, hr, _, hpw, hiso'⟩ := downloadLoop_chunk h hiso
  have hdrop : s'.events.drop s.events.length = es := by
    rw [he]
    exact List.drop_left _ _
  rw [hdrop]
  exact ⟨hiso', by rw [he], hr, hpw⟩

/-- Witness for C3 on a concrete one-track run. -/
theorem c3_isolation_invariant_witness :
    s1C3.isolated = none ∧
    s1C3.events = s0C3.events ++ s1C3.events.drop s0C3.events.length ∧
    soloReplay (some none) (s1C3.events.drop s0C3.events.length) = some none ∧
    (s1C3.events.drop s0C3.events.length).Pairwise
      (fun a b => evIndex a ≤ evIndex b) :=
  c3_isolation_invariant tracksC3 envC3 1 1 0 s0C3 s1C3 rfl (by rfl)

/-- C2.  When the target filename for track `i` already exists in the
output directory, the retry loop for `i` returns at once with the state
unchanged — no solo click, no download trigger, no filesystem change (in
particular the existing file is untouched) — and the track loop advances
to index `i + 1` with that same state. -/
theorem c2_idempotent_skip :
    ∀ (tracks : List Track) (env : Env) (fuel rem i : Nat) (s : OrchState)
      (tr : Track) (nm : String),
      tracks.get? i = some tr →
      tr.caption = some nm →
      s.fs.contains (finalFileName i nm) = true →
      processTrack tracks env (fuel + 1) i s = .ok s ∧
      downloadLoop tracks env (fuel + 1) (rem + 1) i s =
        downloadLoop tracks env (fuel + 1) rem (i + 1) s := by
  intro tracks env fuel rem i s tr nm hg hc hex
  have ha : processAttempt tracks env i s = .ok (s, true, false) := by
    unfold processAttempt
    rw [hg]
    simp only
    rw [hc]
    simp only
    rw [if_pos hex]
  have hpt : processTrack tracks env (fuel + 1) i s = .ok s := by
    rw [processTrack, ha]
    simp
  refine ⟨hpt, ?_⟩
  rw [downloadLoop, hpt]

/-- Witness for C2: with the file already present, the track is skipped
with the state untouched and processing advances. -/
theorem c2_idempotent_skip_witness :
    processTrack tracksC2 envC2 1 0 sC2 = .ok sC2 ∧
    downloadLoop tracksC2 envC2 1 1 0 sC2 =
      downloadLoop tracksC2 envC2 1 0 1 sC2 :=
  c2_idempotent_skip tracksC2 envC2 0 0 0 sC2 ⟨some "Piano", true⟩ "Piano"
    rfl rfl (by decide)

theorem findNewFile_fresh {before : List String} {f : String}
    (hc : before.contains f = false) (he : jsEndsWith f ".crdownload" = false) :
    findNewFile before (before ++ [f]) = some f := by
  have hf : f ∉ before := not_mem_of_contains_false hc
  unfold findNewFile
  rw [find?_append_of_none [f] (fun x hx => by simp [hx])]
  simp [List.find?, hf, he]

theorem processAttempt_single_file {tracks : List Track} {env : Env} {i : Nat}
    {s : OrchState} {tr : Track} {nm f : String}
    (hg : tracks.get? i = some tr) (hc : tr.caption = some nm)
    (hex : s.fs.contains (finalFileName i nm) = false)
    (hbtn : env.hasDownloadButton = true)
    (hadd : env.added s.k = fun _ => [f])
    (hcf : s.fs.contains f = false)
    (hef : jsEndsWith f ".crdownload" = false) :
    processAttempt tracks env i s = .ok
      ({ fs := s.fs ++ [finalFileName i nm],
         isolated := if tr.hasSolo then toggleSolo i (toggleSolo i s.isolated)
                     else s.isolated,
         events := s.events ++ (if tr.hasSolo then [Event.soloOn i] else [])
                   ++ [.trigger i, .renamed i f (finalFileName i nm)]
                   ++ (if tr.hasSolo then [Event.soloOff i] else []),
         k := s.k + 1 }, true, false) := by
  have hcur : attemptDir s.fs (env.added s.k) = fun _ => s.fs ++ [f] := by
    funext t
    unfold attemptDir
    rw [hadd]
    simp [dedupKeepFirst, not_mem_of_contains_false hcf]
  have hpoll : pollForFile s.fs (attemptDir s.fs (env.added s.k)) pollBudget 0
      = some (f, 0) := by
    rw [hcur]
    exact pollForFile_found (findNewFile_fresh hcf hef) (by decide)
  have herase : (s.fs ++ [f]).erase f = s.fs := by
    rw [List.erase_append_right _ (not_mem_of_contains_false hcf)]
    simp
  have hfilter : s.fs.filter (fun g => g != finalFileName i nm) = s.fs := by
    refine List.filter_eq_self.mpr (fun g hgm => ?_)
    have : g ≠ finalFileName i nm := by
      intro hgeq
      exact not_mem_of_contains_false hex (hgeq ▸ hgm)
    simpa using this
  unfold processAttempt
  rw [hg]
  simp only
  rw [hc]
  simp only
  rw [if_neg (by rw [hex]; simp), if_pos hbtn, hpoll]
  simp only
  rw [hcur]
  simp only
  rw [herase, hfilter]
  by_cases hs : tr.hasSolo = true <;> simp [hs]

/-- C9.  The detector's acceptance test is only "new since the snapshot
and not ending in `.crdownload`": any such directory entry, of any
extension, is accepted; and on acceptance the orchestrator renames that
entry to the canonical `.mp3` target name regardless of its actual
type, so the directory afterwards holds the `.mp3`-named file and no
longer the original entry. -/
theorem c9_accepts_any_new_entry :
    (∀ (before : List String) (f : String),
      before.contains f = false → jsEndsWith f ".crdownload" = false →
      findNewFile before (before ++ [f]) = some f) ∧
    (∀ (tracks : List Track) (env : Env) (i : Nat) (s : OrchState)
        (tr : Track) (nm f : String) (s₁ : OrchState) (d sk : Bool),
      tracks.get? i = some tr → tr.caption = some nm →
      s.fs.contains (finalFileName i nm) = false →
      env.hasDownloadButton = true →
      env.added s.k = (fun _ => [f]) →
      s.fs.contains f = false →
      jsEndsWith f ".crdownload" = false →
      f ≠ finalFileName i nm →
      processAttempt tracks env i s = .ok (s₁, d, sk) →
      d = true ∧ sk = false ∧
      s₁.fs = s.fs ++ [finalFileName i nm] ∧
      s₁.fs.contains (finalFileName i nm) = true ∧
      s₁.fs.contains f = false) := by
  constructor
  · intro before f hc he
    exact findNewFile_fresh hc he
  · intro tracks env i s tr nm f s₁ d sk hg hc hex hbtn hadd hcf hef hne h
    have hx := (processAttempt_single_file hg hc hex hbtn hadd hcf hef).symm.trans h
    obtain ⟨h₁, h₂, h₃⟩ : _ ∧ _ ∧ _ := by simpa [Prod.ext_iff] using hx
    refine ⟨h₂, h₃, ?_, ?_, ?_⟩
    · rw [← h₁]
    · rw [← h₁]
      simp
    · rw [← h₁]
      have h5 : f ∉ s.fs := not_mem_of_contains_false hcf
      simp [h5, hne]

/-- Witness for C9: a fresh `weird.pdf` is accepted by the detector and
renamed to `01 - Guitar.mp3`. -/
theorem c9_accepts_any_new_entry_witness :
    findNewFile ["old.mp3"] (["old.mp3"] ++ ["weird.pdf"]) = some "weird.pdf" ∧
    ((true : Bool) = true ∧ (false : Bool) = false ∧
      s1C9.fs = sC9.fs ++ [finalFileName 0 "Guitar"] ∧
      s1C9.fs.contains (finalFileName 0 "Guitar") = true ∧
      s1C9.fs.contains "weird.pdf" = false) :=
  ⟨c9_accepts_any_new_entry.1 ["old.mp3"] "weird.pdf" (by decide) (by decide),
   c9_accepts_any_new_entry.2 tracksC9 envC9 0 sC9 ⟨some "Guitar", true⟩
     "Guitar" "weird.pdf" s1C9 true false rfl rfl (by decide) rfl rfl
     (by decide) (by decide) (by decide) (by rfl)⟩

/-- C10.  Degraded-mode continuation exists only for a missing solo
control: a resolved track with no caption element makes the orchestrator
raise (reading `textContent` of a null element throws), and the error
aborts the whole mix run — the retry loop and the remaining-track loop
both return the error; by contrast, a track with a caption but no solo
control is processed to completion without solo events. -/
theorem c10_missing_caption_aborts :
    (∀ (tracks : List Track) (env : Env) (fuel rem i : Nat) (s : OrchState)
        (tr : Track),
      tracks.get? i = some tr → tr.caption = none →
      processTrack tracks env (fuel + 1) i s = .error .captionMissing ∧
      downloadLoop tracks env (fuel + 1) (rem + 1) i s =
        .error .captionMissing) ∧
    (∀ (tracks : List Track) (env : Env) (i : Nat) (s : OrchState)
        (tr : Track) (nm f : String),
      tracks.get? i = some tr → tr.caption = some nm → tr.hasSolo = false →
      s.fs.contains (finalFileName i nm) = false →
      env.hasDownloadButton = true →
      env.added s.k = (fun _ => [f]) →
      s.fs.contains f = false → jsEndsWith f ".crdownload" = false →
      processAttempt tracks env i s = .ok
        ({ fs := s.fs ++ [finalFileName i nm], isolated := s.isolated,
           events := s.events ++ [.trigger i, .renamed i f (finalFileName i nm)],
           k := s.k + 1 }, true, false)) := by
  constructor
  · intro tracks env fuel rem i s tr hg hc
    have ha : processAttempt tracks env i s = .error .captionMissing := by
      unfold processAttempt
      rw [hg]
      simp only
      rw [hc]
    have hpt : processTrack tracks env (fuel + 1) i s =
        .error .captionMissing := by
      rw [processTrack, ha]
    exact ⟨hpt, by rw [downloadLoop, hpt]⟩
  · intro tracks env i s tr nm f hg hc hs hex hbtn hadd hcf hef
    have := processAttempt_single_file hg hc hex hbtn hadd hcf hef
    simpa [hs] using this

/-- Witness for C10: the captionless track aborts the run; the solo-less
track completes without solo events. -/
theorem c10_missing_caption_aborts_witness :
    (processTrack tracksC10a envC10 1 0 sC10 = .error .captionMissing ∧
      downloadLoop tracksC10a envC10 1 1 0 sC10 = .error .captionMissing) ∧
    processAttempt tracksC10b envC10 0 sC10 = .ok
      ({ fs := sC10.fs ++ [finalFileName 0 "Choir"], isolated := sC10.isolated,
         events := sC10.events
           ++ [.trigger 0, .renamed 0 "c.mp3" (finalFileName 0 "Choir")],
         k := sC10.k + 1 }, true, false) :=
  ⟨c10_missing_caption_aborts.1 tracksC10a envC10 0 0 0 sC10 ⟨none, true⟩
     rfl rfl,
   c10_missing_caption_aborts.2 tracksC10b envC10 0 sC10 ⟨some "Choir", false⟩
     "Choir" "c.mp3" rfl rfl rfl (by decide) rfl rfl (by decide) (by decide)⟩

theorem erase_found_no_more {l : List String} {p : String → Bool} {tf : String}
    (hfind : l.find? p = some tf) (hlen : (l.filter p).length ≤ 1) :
    (l.erase tf).filter p = [] := by
  have hmem : tf ∈ l := List.mem_of_find?_eq_some hfind
  have hp : p tf = true := List.find?_some hfind
  have htfF : tf ∈ l.filter p := List.mem_filter.mpr ⟨hmem, hp⟩
  have h1 : (l.filter p).length = 1 := by
    have := List.length_pos_of_mem htfF
    omega
  obtain ⟨a, ha⟩ := List.length_eq_one.mp h1
  have hta : tf = a := by
    have h' := htfF
    rw [ha] at h'
    simpa using h'
  subst hta
  rw [List.eq_nil_iff_forall_not_mem]
  intro g hgm
  have hgE : g ∈ l.erase tf := (List.mem_filter.mp hgm).1
  have hgp : p g = true := (List.mem_filter.mp hgm).2
  have hgF : g ∈ l.filter p :=
    List.mem_filter.mpr ⟨List.mem_of_mem_erase hgE, hgp⟩
  have hg_eq : g = tf := by
    rw [ha] at hgF
    simpa using hgF
  subst hg_eq
  have hc1 : 0 < (l.erase g).count g := List.count_pos_iff.mpr hgE
  have hc2 : (l.erase g).count g = l.count g - 1 := List.count_erase_self g l
  have hc3 : (l.filter p).count g = l.count g := List.count_filter hp
  have hc4 : (l.filter p).count g ≤ (l.filter p).length :=
    List.count_le_length g (l.filter p)
  omega

/-- C6.  When a download attempt for track `i` times out, the attempt
ends unsuccessful with the operator's prompt answer recorded; afterwards
no file that is new since the attempt's snapshot and carries the
`.crdownload` suffix remains in the directory (under the spec's
exclusive-directory-ownership assumption, stated here as: at most one
new partial artifact exists at cleanup time); exactly one download
trigger was performed by the attempt; and the prompt answer steers the
loops: Skip ends the track's retry loop with this state and the track
loop advances to `i + 1` without error, while Retry re-enters the full
isolate→trigger→await cycle for the same index `i` once more. -/
theorem c6_timeout_cleanup_retry_skip :
    ∀ (tracks : List Track) (env : Env) (fuel rem i : Nat) (s : OrchState)
      (tr : Track) (nm : String) (s₁ : OrchState) (d sk : Bool),
      tracks.get? i = some tr →
      tr.caption = some nm →
      s.fs.contains (finalFileName i nm) = false →
      env.hasDownloadButton = true →
      pollForFile s.fs (attemptDir s.fs (env.added s.k)) pollBudget 0 = none →
      ((attemptDir s.fs (env.added s.k) pollBudget).filter
          (fun g => !s.fs.contains g && jsEndsWith g ".crdownload")).length ≤ 1 →
      processAttempt tracks env i s = .ok (s₁, d, sk) →
      d = false ∧ sk = env.skipChoice s.k ∧
      s₁.fs.filter (fun g => !s.fs.contains g && jsEndsWith g ".crdownload")
        = [] ∧
      s₁.events.countP isTriggerEv = s.events.countP isTriggerEv + 1 ∧
      (env.skipChoice s.k = true →
        processTrack tracks env (fuel + 1) i s = .ok s₁ ∧
        downloadLoop tracks env (fuel + 1) (rem + 1) i s =
          downloadLoop tracks env (fuel + 1) rem (i + 1) s₁) ∧
      (env.skipChoice s.k = false →
        processTrack tracks env (fuel + 1) i s =
          processTrack tracks env fuel i s₁) := by
  intro tracks env fuel rem i s tr nm s₁ d sk hg hc hex hbtn hpoll hlen h
  have ha := h
  unfold processAttempt at h
  rw [hg] at h
  simp only at h
  rw [hc] at h
  simp only at h
  rw [if_neg (by rw [hex]; simp), if_pos hbtn, hpoll] at h
  simp only at h
  cases hfind : (attemptDir s.fs (env.added s.k) pollBudget).find?
      (fun g => !s.fs.contains g && jsEndsWith g ".crdownload") with
  | some tf =>
    rw [hfind] at h
    simp only at h
    obtain ⟨h₁, h₂, h₃⟩ := by simpa [Prod.ext_iff] using h
    have hfs : s₁.fs = (attemptDir s.fs (env.added s.k) pollBudget).erase tf := by
      rw [← h₁]
    have hclean : s₁.fs.filter
        (fun g => !s.fs.contains g && jsEndsWith g ".crdownload") = [] := by
      rw [hfs]
      exact erase_found_no_more hfind hlen
    have hcount : s₁.events.countP isTriggerEv =
        s.events.countP isTriggerEv + 1 := by
      rw [← h₁]
      by_cases hs : tr.hasSolo = true <;>
        simp [hs, List.countP_append, List.countP_cons, isTriggerEv]
    have ha' : processAttempt tracks env i s =
        .ok (s₁, false, env.skipChoice s.k) := by
      rw [ha, h₂, h₃]
    have hstep : processTrack tracks env (fuel + 1) i s =
        if (false || env.skipChoice s.k) = true then .ok s₁
        else processTrack tracks env fuel i s₁ := by
      rw [processTrack, ha']
    refine ⟨h₂, h₃.symm, hclean, hcount, ?_, ?_⟩
    · intro hskip
      have hpt : processTrack tracks env (fuel + 1) i s = .ok s₁ := by
        rw [hstep, hskip]
        simp
      exact ⟨hpt, by rw [downloadLoop, hpt]⟩
    · intro hretry
      rw [hstep, hretry]
      simp
  | none =>
    rw [hfind] at h
    simp only at h
    obtain ⟨h₁, h₂, h₃⟩ := by simpa [Prod.ext_iff] using h
    have hfs : s₁.fs = attemptDir s.fs (env.added s.k) pollBudget := by
      rw [← h₁]
    have hclean : s₁.fs.filter
        (fun g => !s.fs.contains g && jsEndsWith g ".crdownload") = [] := by
      rw [hfs]
      exact List.filter_eq_nil_iff.mpr (List.find?_eq_none.mp hfind)
    have hcount : s₁.events.countP isTriggerEv =
        s.events.countP isTriggerEv + 1 := by
      rw [← h₁]
      by_cases hs : tr.hasSolo = true <;>
        simp [hs, List.countP_append, List.countP_cons, isTriggerEv]
    have ha' : processAttempt tracks env i s =
        .ok (s₁, false, env.skipChoice s.k) := by
      rw [ha, h₂, h₃]
    have hstep : processTrack tracks env (fuel + 1) i s =
        if (false || env.skipChoice s.k) = true then .ok s₁
        else processTrack tracks env fuel i s₁ := by
      rw [processTrack, ha']
    refine ⟨h₂, h₃.symm, hclean, hcount, ?_, ?_⟩
    · intro hskip
      have hpt : processTrack tracks env (fuel + 1) i s = .ok s₁ := by
        rw [hstep, hskip]
        simp
      exact ⟨hpt, by rw [downloadLoop, hpt]⟩
    · intro hretry
      rw [hstep, hretry]
      simp

/-- Witness for C6 on a concrete timed-out attempt answered with Skip. -/
theorem c6_timeout_cleanup_retry_skip_witness :
    (false : Bool) = false ∧ (true : Bool) = envC6.skipChoice sC6.k ∧
    s1C6.fs.filter
      (fun g => !sC6.fs.contains g && jsEndsWith g ".crdownload") = [] ∧
    s1C6.events.countP isTriggerEv = sC6.events.countP isTriggerEv + 1 ∧
    (envC6.skipChoice sC6.k = true →
      processTrack tracksC6 envC6 1 0 sC6 = .ok s1C6 ∧
      downloadLoop tracksC6 envC6 1 1 0 sC6 =
        downloadLoop tracksC6 envC6 1 0 1 s1C6) ∧
    (envC6.skipChoice sC6.k = false →
      processTrack tracksC6 envC6 1 0 sC6 =
        processTrack tracksC6 envC6 0 0 s1C6) :=
  c6_timeout_cleanup_retry_skip tracksC6 envC6 0 0 0 sC6 ⟨some "Bass", true⟩
    "Bass" s1C6 false true rfl rfl (by decide) rfl
    (@pollForFile_none_of_all sC6.fs (attemptDir sC6.fs (envC6.added sC6.k))
      (fun _ => rfl) pollBudget 0) (by decide) (by rfl)

theorem findLoop_none {env : LocatorEnv} :
    ∀ {fuel t0}, findLoop env fuel t0 = none →
      ∀ t, t0 ≤ t → t < t0 + fuel → loopProbe (env.view t) = none := by
  intro fuel
  induction fuel with
  | zero => intro t0 _ t h1 h2; omega
  | succ n ih =>
    intro t0 h t h1 h2
    rw [findLoop] at h
    cases hp : loopProbe (env.view t0) with
    | some g => rw [hp] at h; exact absurd h (by simp)
    | none =>
      rw [hp] at h
      by_cases ht : t = t0
      · rw [ht]
        exact hp
      · exact ih h t (by omega) (by omega)

theorem scanFrames_none_iff :
    ∀ fs : List PageFrame,
      scanFrames fs = none ↔ ∀ f ∈ fs, f.hasMixer ≠ some true := by
  intro fs
  induction fs with
  | nil => simp [scanFrames]
  | cons f fs ih =>
    cases hm : f.hasMixer with
    | none =>
      simp only [scanFrames, hm, List.mem_cons]
      constructor
      · intro h g hg
        rcases hg with hg | hg
        · rw [hg, hm]; simp
        · exact (ih.mp (by simpa using h)) g hg
      · intro h
        have := ih.mpr (fun g hg => h g (by simp [hg]))
        simp [this]
    | some b =>
      cases b with
      | true => simp [scanFrames, hm]
      | false =>
        simp only [scanFrames, hm, List.mem_cons]
        constructor
        · intro h g hg
          rcases hg with hg | hg
          · rw [hg, hm]; simp
          · exact (ih.mp (by simpa using h)) g hg
        · intro h
          have := ih.mpr (fun g hg => h g (by simp [hg]))
          simp [this]

theorem scanFrames_some :
    ∀ (fs : List PageFrame) (j : Nat), scanFrames fs = some j →
      ∃ f, fs.get? j = some f ∧ f.hasMixer = some true := by
  intro fs
  induction fs with
  | nil => intro j h; simp [scanFrames] at h
  | cons f fs ih =>
    intro j h
    cases hm : f.hasMixer with
    | none =>
      rw [scanFrames, hm] at h
      simp only at h
      cases hs : scanFrames fs with
      | none => rw [hs] at h; simp at h
      | some j' =>
        rw [hs] at h
        obtain hj : j' + 1 = j := by simpa using h
        obtain ⟨g, hg1, hg2⟩ := ih j' hs
        exact ⟨g, by rw [← hj]; simpa using hg1, hg2⟩
    | some b =>
      cases b with
      | true =>
        rw [scanFrames, hm] at h
        obtain hj : 0 = j := by simpa using h
        exact ⟨f, by rw [← hj]; simp, hm⟩
      | false =>
        rw [scanFrames, hm] at h
        simp only at h
        cases hs : scanFrames fs with
        | none => rw [hs] at h; simp at h
        | some j' =>
          rw [hs] at h
          obtain hj : j' + 1 = j := by simpa using h
          obtain ⟨g, hg1, hg2⟩ := ih j' hs
          exact ⟨g, by rw [← hj]; simpa using hg1, hg2⟩

/-- C8.  The mixer locator fails only after the whole timeout window of
poll iterations found nothing (every in-window probe of the main page,
the frame scan and the iframe fallback returned nothing), and the error
it fails with carries exactly the diagnostics dump: the content of every
frame (the main document is the frame list's first entry) whose content
is reachable and non-empty.  The frame scan treats a frame that throws
on access exactly like a frame without the mixer root: it never blocks
the scan and never yields a handle, and whenever the scan returns a
handle it points at a frame that really answers with the mixer root. -/
theorem c8_mixer_locator :
    (∀ (env : LocatorEnv) (timeout : Nat) (dg : List String),
      findMixerContext env timeout = .error dg →
      dg = savedDiagnostics (env.view (timeout + 2)).frames ∧
      ∀ t, 2 ≤ t → t < timeout + 2 → loopProbe (env.view t) = none) ∧
    (∀ fs : List PageFrame,
      scanFrames fs = none ↔ ∀ f ∈ fs, f.hasMixer ≠ some true) ∧
    (∀ (fs : List PageFrame) (j : Nat), scanFrames fs = some j →
      ∃ f, fs.get? j = some f ∧ f.hasMixer = some true) := by
  refine ⟨?_, scanFrames_none_iff, scanFrames_some⟩
  intro env timeout dg h
  unfold findMixerContext at h
  by_cases h0 : (env.view 0).pageHasMixer = true
  · rw [if_pos h0] at h
    exact absurd h (by simp)
  · rw [if_neg h0] at h
    by_cases h1 : (env.openerPresent && (env.view 1).pageHasMixer) = true
    · rw [if_pos h1] at h
      exact absurd h (by simp)
    · rw [if_neg h1] at h
      cases hl : findLoop env timeout 2 with
      | some g => rw [hl] at h; exact absurd h (by simp)
      | none =>
        rw [hl] at h
        obtain hd : savedDiagnostics (env.view (timeout + 2)).frames = dg := by
          simpa using h
        refine ⟨hd.symm, fun t ht1 ht2 => ?_⟩
        exact findLoop_none hl t ht1 (by omega)

/-- Witness for C8 on a concrete timed-out location attempt. -/
theorem c8_mixer_locator_witness :
    ["frame html"] = savedDiagnostics (envC8.view (1 + 2)).frames ∧
    loopProbe (envC8.view 2) = none :=
  ⟨(c8_mixer_locator.1 envC8 1 ["frame html"] (by rfl)).1,
   (c8_mixer_locator.1 envC8 1 ["frame html"] (by rfl)).2 2 (by decide)
     (by decide)⟩
